import Mathlib

/-!
Shallow embedding of the StrmSync catalog-synchronization core
(src/core.py, src/m3u_utils.py, src/strm_utils.py, src/main.py,
src/api_utils.py) together with proofs of the specification claims.

Strings are modelled as Lean strings over lists of characters.  Each
Python regular-expression substitution used by the source is implemented
as an explicit left-to-right scanner reproducing the behaviour of that
concrete pattern (leftmost match, greedy quantifiers, continuation after
the match).  Unicode normalization (NFKC/NFKD) is the identity on the
ASCII inputs considered throughout; non-ASCII characters without an
explicit mapping are dropped, as encode("ascii", "ignore") drops
undecomposable characters.  Character classes (\s, \w, \d, lower) are
modelled at their ASCII meaning, which coincides with Python on all
ASCII inputs.
-/

namespace StrmSync

/-- Python regex whitespace class \s (ASCII part): space, tab, newline,
carriage return, vertical tab, form feed. -/
def pyIsSpace (c : Char) : Bool :=
  c == ' ' || c == '\t' || c == '\n' || c == '\r' ||
    c == Char.ofNat 11 || c == Char.ofNat 12

/-- Python regex word class \w (ASCII part): letters, digits, underscore. -/
def isWordCh (c : Char) : Bool :=
  c.isAlphanum || c == '_'

/-- Python str.strip() on a character list: drop whitespace on both ends. -/
def pyStrip (s : List Char) : List Char :=
  ((s.dropWhile pyIsSpace).reverse.dropWhile pyIsSpace).reverse

/-- Python str.strip() on strings. -/
def pyStripStr (s : String) : String :=
  String.mk (pyStrip s.data)

/-- Python str.lower() (ASCII part). -/
def pyLowerStr (s : String) : String :=
  String.mk (s.data.map Char.toLower)

/-- core.py FRACTION_MAP and SYMBOL_MAP applied as in _normalize_unicode:
each mapped character is a single character, and no replacement string
contains a mapped character, so the sequence of str.replace calls equals
a simultaneous character expansion.  The final NFKC normalization is the
identity on the ASCII output of these maps.  Non-ASCII code points are
written numerically. -/
def normalizeUnicodeChar (c : Char) : List Char :=
  if c == Char.ofNat 189 then ['1', '/', '2']         -- 1/2 vulgar fraction
  else if c == Char.ofNat 8531 then ['1', '/', '3']
  else if c == Char.ofNat 8532 then ['2', '/', '3']
  else if c == Char.ofNat 188 then ['1', '/', '4']
  else if c == Char.ofNat 190 then ['3', '/', '4']
  else if c == Char.ofNat 183 then [' ']              -- middle dot
  else if c == Char.ofNat 8211 then ['-']             -- en dash
  else if c == Char.ofNat 8212 then ['-']             -- em dash
  else if c == Char.ofNat 8220 then [Char.ofNat 34]   -- left double quote
  else if c == Char.ofNat 8221 then [Char.ofNat 34]   -- right double quote
  else if c == Char.ofNat 8216 then [Char.ofNat 39]   -- left single quote
  else if c == Char.ofNat 8217 then [Char.ofNat 39]   -- right single quote
  else if c == Char.ofNat 8230 then ['.', '.', '.']   -- ellipsis
  else if c == Char.ofNat 198 then ['A', 'E']         -- AE ligature
  else if c == Char.ofNat 230 then ['a', 'e']         -- ae ligature
  else [c]

/-- core.py _normalize_unicode. -/
def normalizeUnicode (s : List Char) : List Char :=
  (s.map normalizeUnicodeChar).flatten

/-- core.py _ascii: NFKD then encode("ascii", "ignore").  NFKD is the
identity on ASCII; remaining non-ASCII characters are dropped. -/
def asciiIgnore (s : List Char) : List Char :=
  s.filter (fun c => c.toNat < 128)

/-- sanitize_title step: re.sub(r"^\s*(\d+[kK]|[0-9]{3,4}[pP]):\s*", "", t).
The pattern is anchored, so at most one replacement happens: optional
leading whitespace, a digit run followed by k/K (any length) or by p/P
(three or four digits), a colon, trailing whitespace. -/
def stripQualityTag (s : List Char) : List Char :=
  let s1 := s.dropWhile pyIsSpace
  let ds := s1.takeWhile Char.isDigit
  let rest := s1.dropWhile Char.isDigit
  match rest with
  | c :: d :: rest2 =>
    if d == ':' && !ds.isEmpty &&
        (c == 'k' || c == 'K' ||
          ((c == 'p' || c == 'P') && (ds.length == 3 || ds.length == 4))) then
      rest2.dropWhile pyIsSpace
    else s
  | _ => s

/-- sanitize_title step: t.replace("&", "and"). -/
def ampToAnd (s : List Char) : List Char :=
  (s.map (fun c => if c == '&' then ['a', 'n', 'd'] else [c])).flatten

def isBracketCh (c : Char) : Bool :=
  c == '{' || c == '}' || c == '(' || c == ')'

def isTT (c : Char) : Bool :=
  c == 't' || c == 'T'

/-- Matcher for re pattern [{}()]?tt\d+[{}()]? (IGNORECASE) at the head of
the list; returns the remainder after the match when it succeeds. -/
def matchTTAt (s : List Char) : Option (List Char) :=
  let core := fun (u : List Char) =>
    match u with
    | a :: b :: rest =>
      if isTT a && isTT b && !(rest.takeWhile Char.isDigit).isEmpty then
        let afterDigits := rest.dropWhile Char.isDigit
        match afterDigits with
        | d :: tail => if isBracketCh d then some tail else some afterDigits
        | [] => some []
      else none
    | _ => none
  match s with
  | c :: rest => if isBracketCh c then core rest else core s
  | [] => none

/-- sanitize_title step: re.sub(r"[{}()]?tt\d+[{}()]?", "", t, IGNORECASE),
as a fuel-driven left-to-right scan; the wrapper supplies fuel equal to
the input length, which every step strictly decreases. -/
def removeTTFuel : Nat → List Char → List Char
  | 0, s => s
  | _ + 1, [] => []
  | fuel + 1, c :: rest =>
    match matchTTAt (c :: rest) with
    | some remainder => removeTTFuel fuel remainder
    | none => c :: removeTTFuel fuel rest

def removeTT (s : List Char) : List Char :=
  removeTTFuel s.length s

/-- sanitize_title step: re.sub(r"\bimdb\b", "", t, IGNORECASE).  The
boolean argument records whether the previous original character was a
word character (for the left boundary test). -/
def removeImdbGo : Bool → List Char → List Char
  | prevWord, a :: b :: c :: d :: rest =>
    if !prevWord && (a == 'i' || a == 'I') && (b == 'm' || b == 'M') &&
        (c == 'd' || c == 'D') && (d == 'b' || d == 'B') &&
        (match rest with | [] => true | e :: _ => !isWordCh e) then
      removeImdbGo true rest
    else
      a :: removeImdbGo (isWordCh a) (b :: c :: d :: rest)
  | _, s => s

def removeImdb (s : List Char) : List Char :=
  removeImdbGo false s

/-- sanitize_title step: replace "-", "_", "." by spaces. -/
def sepToSpace (s : List Char) : List Char :=
  s.map (fun c => if c == '-' || c == '_' || c == '.' then ' ' else c)

/-- Characters kept verbatim by re.sub(r"[^\w\s():]+", " ", t). -/
def keptCh (c : Char) : Bool :=
  isWordCh c || pyIsSpace c || c == '(' || c == ')' || c == ':'

/-- sanitize_title step: re.sub(r"[^\w\s():]+", " ", t): each maximal run
of disallowed characters becomes a single space.  The boolean records
whether we are inside such a run. -/
def punctRuns : Bool → List Char → List Char
  | _, [] => []
  | inRun, c :: rest =>
    if keptCh c then c :: punctRuns false rest
    else if inRun then punctRuns true rest
    else ' ' :: punctRuns true rest

def punctToSpace (s : List Char) : List Char :=
  punctRuns false s

/-- re.sub(r"\s+", " ", t): each maximal whitespace run becomes one space. -/
def wsRuns : Bool → List Char → List Char
  | _, [] => []
  | inRun, c :: rest =>
    if pyIsSpace c then
      if inRun then wsRuns true rest else ' ' :: wsRuns true rest
    else c :: wsRuns false rest

def collapseSpaces (s : List Char) : List Char :=
  wsRuns false s

/-- Matcher for re pattern \((\d{4})\)\s*\(\1\) at the head of the list:
two identical parenthesized four-digit years separated by whitespace.
Returns the four digits and the remainder after the match. -/
def matchDoubleYearAt (s : List Char) : Option (List Char × List Char) :=
  match s with
  | '(' :: a :: b :: c :: d :: ')' :: rest =>
    if a.isDigit && b.isDigit && c.isDigit && d.isDigit then
      match rest.dropWhile pyIsSpace with
      | '(' :: a2 :: b2 :: c2 :: d2 :: ')' :: rest2 =>
        if a2 == a && b2 == b && c2 == c && d2 == d then
          some ([a, b, c, d], rest2)
        else none
      | _ => none
    else none
  | _ => none

/-- sanitize_title step: re.sub(r"\((\d{4})\)\s*\(\1\)", r"(\1)", t), as a
fuel-driven scan (fuel = input length suffices; each step strictly
shrinks the unscanned part). -/
def dedupeYearFuel : Nat → List Char → List Char
  | 0, s => s
  | _ + 1, [] => []
  | fuel + 1, c :: rest =>
    match matchDoubleYearAt (c :: rest) with
    | some (ds, remainder) => '(' :: (ds ++ (')' :: dedupeYearFuel fuel remainder))
    | none => c :: dedupeYearFuel fuel rest

def dedupeParenYear (s : List Char) : List Char :=
  dedupeYearFuel s.length s

/-- sanitize_title step: re.sub(r"\s*\(\d{4}\)\s*$", "", t): strip one
trailing parenthesized four-digit year together with surrounding
whitespace. -/
def stripTrailingParenYear (s : List Char) : List Char :=
  match (s.reverse.dropWhile pyIsSpace : List Char) with
  | ')' :: d4 :: d3 :: d2 :: d1 :: '(' :: rest =>
    if d1.isDigit && d2.isDigit && d3.isDigit && d4.isDigit then
      (rest.dropWhile pyIsSpace).reverse
    else s
  | _ => s

/-- sanitize_title step: re.sub(r"\s*-\s*\d{4}\s*$", "", t): strip one
trailing "- YYYY" (exactly four digits at the end, a hyphen before them,
whitespace absorbed on both sides of the hyphen). -/
def stripTrailingDashYear (s : List Char) : List Char :=
  match (s.reverse.dropWhile pyIsSpace : List Char) with
  | d4 :: d3 :: d2 :: d1 :: rest =>
    if d1.isDigit && d2.isDigit && d3.isDigit && d4.isDigit then
      match rest.dropWhile pyIsSpace with
      | '-' :: rest2 => (rest2.dropWhile pyIsSpace).reverse
      | _ => s
    else s
  | _ => s

/-- sanitize_title step: re.sub(r"\s+\d{4}\s*$", "", t): strip one
trailing bare four-digit year preceded by at least one whitespace
character; the whole whitespace run is part of the match. -/
def stripTrailingWsYear (s : List Char) : List Char :=
  match (s.reverse.dropWhile pyIsSpace : List Char) with
  | d4 :: d3 :: d2 :: d1 :: rest =>
    if d1.isDigit && d2.isDigit && d3.isDigit && d4.isDigit &&
        (match rest with | e :: _ => pyIsSpace e | [] => false) then
      (rest.dropWhile pyIsSpace).reverse
    else s
  | _ => s

/-- core.py sanitize_title: the fourteen-step normalization pipeline,
each step in source order (lines 56-72). -/
def sanitizeTitleList (s : List Char) : List Char :=
  let t := pyStrip s
  let t := normalizeUnicode t
  let t := asciiIgnore t
  let t := stripQualityTag t
  let t := ampToAnd t
  let t := removeTT t
  let t := removeImdb t
  let t := sepToSpace t
  let t := punctToSpace t
  let t := pyStrip (collapseSpaces t)
  let t := dedupeParenYear t
  let t := stripTrailingParenYear t
  let t := stripTrailingDashYear t
  let t := stripTrailingWsYear t
  pyStrip t

def sanitize_title (s : String) : String :=
  String.mk (sanitizeTitleList s.data)

/-- Scanner for re.search(r"\((\d{4})\)", text): first parenthesized
four-digit group, returned as its four digits. -/
def findParenYear : List Char → Option (List Char)
  | [] => none
  | c :: rest =>
    match c, rest with
    | '(', a :: b :: d :: e :: ')' :: _ =>
      if a.isDigit && b.isDigit && d.isDigit && e.isDigit then some [a, b, d, e]
      else findParenYear rest
    | _, _ => findParenYear rest

/-- Scanner for re.search(r"-\s*(\d{4})$", text): exactly four digits at
the very end, preceded (after optional whitespace) by a hyphen. -/
def trailingDashYear (s : List Char) : Option (List Char) :=
  match (s.reverse : List Char) with
  | e :: d :: b :: a :: rest =>
    if a.isDigit && b.isDigit && d.isDigit && e.isDigit then
      match rest.dropWhile pyIsSpace with
      | '-' :: _ => some [a, b, d, e]
      | _ => none
    else none
  | _ => none

/-- core.py extract_year (lines 82-89). -/
def extract_year (s : String) : Option String :=
  match findParenYear s.data with
  | some ds => some (String.mk ds)
  | none =>
    match trailingDashYear s.data with
    | some ds => some (String.mk ds)
    | none => none

/-- core.py make_cache_key with category=None (the movie-key call site):
lowercase, then keep only [a-z0-9]. -/
def make_cache_key (title : String) : String :=
  String.mk ((title.data.map Char.toLower).filter
    (fun c => (97 ≤ c.toNat && c.toNat ≤ 122) || c.isDigit))

/-- core.py canonical_movie_key (lines 92-98). -/
def canonical_movie_key (titleWithYear : String) : String :=
  let t := sanitize_title titleWithYear
  match extract_year titleWithYear with
  | some y => make_cache_key (t ++ " " ++ y)
  | none => make_cache_key t

/-! Python dict model.  CPython dicts preserve insertion order: assigning
to an existing key updates the value in place, assigning to a new key
appends it.  dict.values() is the value column in that order. -/

def dictInsert {K V : Type} [DecidableEq K] : List (K × V) → K → V → List (K × V)
  | [], k, v => [(k, v)]
  | (k0, v0) :: rest, k, v =>
    if k0 = k then (k0, v) :: rest else (k0, v0) :: dictInsert rest k v

def dictLookup {K V : Type} [DecidableEq K] : List (K × V) → K → Option V
  | [], _ => none
  | (k0, v0) :: rest, k => if k0 = k then some v0 else dictLookup rest k

/-- m3u_utils.py Category. -/
inductive Category
  | MOVIE
  | TVSHOW
  | DOCUMENTARY
  | REPLAY
deriving DecidableEq

/-- m3u_utils.py VODEntry.  The year field holds the value of
extract_year, which is a string in the source. -/
structure VODEntry where
  raw_title : String
  safe_title : String
  url : String
  category : Category
  group : Option String := none
  year : Option String := none
deriving DecidableEq

/-- main.py run_pipeline deduplication (lines 173-177): the unique_entries
dict built by inserting every entry under its generated key.
KeyGenerator.generate_key is imported from core but not defined there;
the dedup semantics are stated for an arbitrary key function. -/
def dedupFold (keyGen : VODEntry → String) (entries : List VODEntry) :
    List (String × VODEntry) :=
  entries.foldl (fun m e => dictInsert m (keyGen e) e) []

/-- main.py run_pipeline line 177: entries = list(unique_entries.values()). -/
def dedup (keyGen : VODEntry → String) (entries : List VODEntry) : List VODEntry :=
  (dedupFold keyGen entries).map Prod.snd

/-- Specification helper: the last entry of the list carrying key k, if
any (used to state the "last parsed wins" policy). -/
def lastWith (keyGen : VODEntry → String) (entries : List VODEntry) (k : String) :
    Option VODEntry :=
  entries.foldl (fun acc e => if keyGen e = k then some e else acc) none

/-! Playlist category assignment, m3u_utils.py parse_m3u lines 74-97. -/

/-- Tail of the [Ss]\d{1,2}\s*[Ee]\d{1,2} pattern after the season
digits: optional whitespace, e/E, at least one digit. -/
def seAfterDigits (u : List Char) : Bool :=
  match u.dropWhile pyIsSpace with
  | e :: d :: _ => (e == 'E' || e == 'e') && d.isDigit
  | [e] => (e == 'E' || e == 'e') && false
  | _ => false

/-- Match of re pattern [Ss]\d{1,2}\s*[Ee]\d{1,2} anchored at the head
(existence only, so both one- and two-digit season readings are tried). -/
def matchSEAt (s : List Char) : Bool :=
  match s with
  | c :: d1 :: rest =>
    (c == 'S' || c == 's') && d1.isDigit &&
      (seAfterDigits rest ||
        (match rest with
         | d2 :: rest2 => d2.isDigit && seAfterDigits rest2
         | [] => false))
  | _ => false

/-- re.search(r"[Ss]\d{1,2}\s*[Ee]\d{1,2}", title). -/
def searchSE : List Char → Bool
  | [] => false
  | c :: rest => matchSEAt (c :: rest) || searchSE rest

/-- re.search(r"\(\d{4}\)\s*$", title). -/
def endsParenYear (s : List Char) : Bool :=
  match (s.reverse.dropWhile pyIsSpace : List Char) with
  | ')' :: d4 :: d3 :: d2 :: d1 :: '(' :: _ =>
    d1.isDigit && d2.isDigit && d3.isDigit && d4.isDigit
  | _ => false

/-- The character class written "[-â€“]" in the source (a hyphen plus the
three characters of a mojibake-decoded en dash). -/
def isMojibakeDash (c : Char) : Bool :=
  c == '-' || c == Char.ofNat 226 || c == Char.ofNat 8364 || c == Char.ofNat 8220

/-- re.search(r"[-â€“]\s*\d{4}\s*$", title). -/
def endsDashYear (s : List Char) : Bool :=
  match (s.reverse.dropWhile pyIsSpace : List Char) with
  | d4 :: d3 :: d2 :: d1 :: rest =>
    d1.isDigit && d2.isDigit && d3.isDigit && d4.isDigit &&
      (match rest.dropWhile pyIsSpace with
       | c :: _ => isMojibakeDash c
       | [] => false)
  | _ => false

/-- Keyword sets are normalized with strip().lower() on entry to
parse_m3u. -/
def keywordSet (kws : List String) : List String :=
  kws.map (fun k => pyLowerStr (pyStripStr k))

/-- m3u_utils.py parse_m3u category resolution (lines 74-97): the
running cat starts at MOVIE, group matching may change it, and the
title-heuristic block is guarded by "cat not in (MOVIE, DOCUMENTARY,
TVSHOW, REPLAY)", reproduced verbatim.  doc_keywords is normalized by
the source but never consulted for category assignment. -/
def parse_m3u_category (group : Option String) (tvKw _docKw movieKw replayKw : List String)
    (title : String) : Category :=
  let g := pyLowerStr (pyStripStr (group.getD ""))
  let cat :=
    if g = "doc" then Category.DOCUMENTARY
    else if g = "docs" then Category.TVSHOW
    else if g ∈ keywordSet movieKw then Category.MOVIE
    else if g ∈ keywordSet tvKw then Category.TVSHOW
    else if g ∈ keywordSet replayKw then Category.REPLAY
    else Category.MOVIE
  if cat ∉ [Category.MOVIE, Category.DOCUMENTARY, Category.TVSHOW, Category.REPLAY] then
    if searchSE title.data then Category.TVSHOW
    else if endsParenYear title.data || endsDashYear title.data then Category.MOVIE
    else cat
  else cat

/-! Pointer-file tree model.  A filesystem is a finite map from resolved
paths (component lists) to file contents; resolution is the identity in
the model since all paths are built absolute. -/

abbrev FsPath := List String

/-- strm_utils.py write_strm_file (lines 13-31): if the target exists and
its stripped content equals the stripped URL case-insensitively, skip;
otherwise write url.strip() plus a newline (directory creation is
implicit in the map model). -/
def strmContent (url : String) : String :=
  pyStripStr url ++ "\n"

structure WriteResult where
  fs : List (FsPath × String)
  wrote : Bool
deriving DecidableEq

def write_strm_file (fs : List (FsPath × String)) (target : FsPath) (url : String) :
    WriteResult :=
  match dictLookup fs target with
  | some content =>
    let old := pyStripStr content
    if pyLowerStr (pyStripStr old) = pyLowerStr (pyStripStr url) then
      { fs := fs, wrote := false }
    else
      { fs := dictInsert fs target (strmContent url), wrote := true }
  | none => { fs := dictInsert fs target (strmContent url), wrote := true }

/-- core.py strm_cache rows: key maps to url, resolved path (or null) and
the tri-state allowed flag. -/
structure CacheRec where
  url : String
  path : Option FsPath
  allowed : Option Int
deriving DecidableEq

inductive Outcome
  | written
  | skippedExisting
  | skippedCached
deriving DecidableEq

structure ProcResult where
  outcome : Outcome
  cacheAfter : List (String × CacheRec)
  fs : List (FsPath × String)
deriving DecidableEq

/-- main.py run_pipeline.process_entry, lines 295-317 (the write
decision).  The entry's key and derived absolute target path are passed
in: both are deterministic functions of the entry, identical across runs
on the same entry.  existingKeys is the local-inventory key set,
strmCache the snapshot read at the start of the run, newCache the
accumulating copy. -/
def run_pipeline_process_entry (existingKeys : List String)
    (strmCache newCache : List (String × CacheRec))
    (fs : List (FsPath × String)) (key : String) (absPath : FsPath) (url : String) :
    ProcResult :=
  if key ∈ existingKeys then
    { outcome := .skippedExisting,
      cacheAfter := dictInsert newCache key { url := url, path := none, allowed := some 1 },
      fs := fs }
  else
    match dictLookup strmCache key with
    | some cached =>
      if cached.url = url ∧ cached.path.isSome ∧ cached.path = some absPath then
        { outcome := .skippedCached,
          cacheAfter := dictInsert newCache key
            { url := cached.url, path := cached.path, allowed := cached.allowed },
          fs := fs }
      else
        { outcome := .written,
          cacheAfter := dictInsert newCache key
            { url := url, path := some absPath, allowed := some 1 },
          fs := (write_strm_file fs absPath url).fs }
    | none =>
      { outcome := .written,
        cacheAfter := dictInsert newCache key
          { url := url, path := some absPath, allowed := some 1 },
        fs := (write_strm_file fs absPath url).fs }

/-! Orphan cleanup model, strm_utils.py cleanup_strm_tree (lines 34-73).
The walked tree is a list of directories in the bottom-up order produced
by os.walk(topdown=False) plus the set of files; paths are resolved by
construction. -/

structure FileNode where
  dir : FsPath
  name : String
deriving DecidableEq

def fullPath (f : FileNode) : FsPath := f.dir ++ [f.name]

def isStrmName (n : String) : Bool :=
  List.isPrefixOf ['m', 'r', 't', 's', '.'] n.data.reverse

def dirBaseName (d : FsPath) : String := d.getLastD ""

def parentDir (d : FsPath) : FsPath := d.dropLast

/-- pathlib suffix.lower(): the final extension, lowercased; empty for
dotless names and names whose only dot is leading. -/
def pySuffixLower (n : String) : String :=
  let r := n.data.reverse
  let pre := r.takeWhile (fun c => c ≠ '.')
  match r.drop pre.length with
  | '.' :: before =>
    if pre.isEmpty || before.isEmpty then ""
    else String.mk ('.' :: (pre.reverse.map Char.toLower))
  | _ => ""

def protectedRoots : List String := ["Movies", "TV Shows", "Documentaries"]

def valid_paths (cache : List (String × CacheRec)) : List FsPath :=
  cache.filterMap (fun kv => kv.2.path)

structure CleanState where
  files : List FileNode
  liveDirs : List FsPath
  removedDirs : List FsPath
deriving DecidableEq

/-- The unlink loop of cleanup_strm_tree for directory d (lines 47-55):
a .strm file directly in d whose resolved path is not among the cache's
valid paths is removed. -/
def cleanupOrphans (cache : List (String × CacheRec)) (d : FsPath)
    (files : List FileNode) : List FileNode :=
  files.filter (fun f =>
    !(decide (f.dir = d) && isStrmName f.name &&
      !(valid_paths cache).any (fun p => decide (p = fullPath f))))

/-- One os.walk step of cleanup_strm_tree on directory d: unlink the
orphan .strm files directly in d, then (unless d bears a protected root
name) remove d when it is empty, or remove it wholesale when it holds
only .nfo files and no subdirectories. -/
def cleanupStep (cache : List (String × CacheRec)) (st : CleanState) (d : FsPath) :
    CleanState :=
  let files1 := cleanupOrphans cache d st.files
  if dirBaseName d ∈ protectedRoots then
    { st with files := files1 }
  else
    let childFiles := files1.filter (fun f => decide (f.dir = d))
    let childDirs := st.liveDirs.filter (fun d2 => decide (d2 ≠ d ∧ parentDir d2 = d))
    if childFiles.isEmpty && childDirs.isEmpty then
      { files := files1,
        liveDirs := st.liveDirs.filter (fun d2 => decide (d2 ≠ d)),
        removedDirs := d :: st.removedDirs }
    else if !childFiles.isEmpty && childFiles.all (fun f => decide (pySuffixLower f.name = ".nfo"))
        && childDirs.isEmpty then
      { files := files1.filter (fun f => decide (f.dir ≠ d)),
        liveDirs := st.liveDirs.filter (fun d2 => decide (d2 ≠ d)),
        removedDirs := d :: st.removedDirs }
    else
      { st with files := files1 }

/-- strm_utils.py cleanup_strm_tree: skipped entirely on an empty cache,
otherwise a bottom-up fold of cleanupStep over the directory list. -/
def cleanup_strm_tree (cache : List (String × CacheRec)) (dirsBottomUp : List FsPath)
    (files : List FileNode) : CleanState :=
  if cache.isEmpty then
    { files := files, liveDirs := dirsBottomUp, removedDirs := [] }
  else
    dirsBottomUp.foldl (cleanupStep cache)
      { files := files, liveDirs := dirsBottomUp, removedDirs := [] }

/-! Classification-oracle decision algorithms, m3u_utils.py.  The HTTP
layer is modelled by an environment holding the responses the network
would produce; a none response stands for a failed request (an exception
caught by the source, or an empty/missing body).  The search-result and
details caches return the same payload as the network call they
memoize, so the cached and uncached code paths of the source collapse
to one function of the environment. -/

/-- One entry of a TMDb movie search result list. -/
structure MovieResult where
  id : Option Nat
  original_language : String
deriving DecidableEq

/-- Responses available to _movie_tmdb_lookup: the search (optionally
with year), the no-year retry search, and the release_dates call whose
entries each carry an optional iso_3166_1 country code. -/
structure MovieLookupEnv where
  search : Option (List MovieResult)
  searchRetry : Option (List MovieResult)
  releases : Option (List (Option String))
deriving DecidableEq

/-- The effective search-result list of _movie_tmdb_lookup (lines
159-221): the first search, retried without the year when it returned
no results and a year was given; none when the request in force failed. -/
def movieEffectiveResults (env : MovieLookupEnv) (year : Option String) :
    Option (List MovieResult) :=
  match env.search with
  | none => none
  | some data => if data.isEmpty ∧ year.isSome then env.searchRetry else some data

/-- m3u_utils.py _movie_tmdb_lookup (lines 159-274): no results or no id
or failed release fetch excludes; a best result in language "ja"
excludes; "en" with an empty allow-list allows; a release country in
the allow-list allows; "en" allows as fallback; otherwise exclude. -/
def _movie_tmdb_lookup (env : MovieLookupEnv) (year : Option String)
    (allowedCountries : List String) : Bool :=
  match movieEffectiveResults env year with
  | none => false
  | some results =>
    match results.head? with
    | none => false
    | some best =>
      match best.id with
      | none => false
      | some _ =>
        match env.releases with
        | none => false
        | some releaseEntries =>
          let lang := pyLowerStr best.original_language
          if lang = "ja" then false
          else if lang = "en" ∧ allowedCountries = [] then true
          else
            let countries := releaseEntries.filterMap id
            if countries.any (fun c => decide (c ∈ allowedCountries)) then true
            else if lang = "en" then true
            else false

/-- One entry of a TMDb TV search result list. -/
structure TVResult where
  id : Option Nat
  original_language : String
  popularity : Int
  origin_country : List String
  first_air_date : String
deriving DecidableEq

/-- TV show details: the origin-country lists of the networks, the
production-country codes, and the show's own origin countries. -/
structure TVShowDetails where
  networks : List (List String)
  production_countries : List (Option String)
  origin_country : List String
deriving DecidableEq

structure TVLookupEnv where
  search : Option (List TVResult)
  details : Option TVShowDetails
deriving DecidableEq

/-- Python max(results, key=popularity): the first element of maximal
popularity (ties keep the earlier element). -/
def pyMaxByPop (l : List TVResult) : Option TVResult :=
  l.foldl (fun acc r =>
    match acc with
    | none => some r
    | some b => if b.popularity < r.popularity then some r else some b) none

/-- Year preference of _tv_has_allowed_network (lines 309-312): keep the
results whose first_air_date starts with the year, unless that filter
empties the list. -/
def tvYearFiltered (results : List TVResult) (year : Option String) : List TVResult :=
  match year with
  | none => results
  | some y =>
    let filtered := results.filter (fun r => r.first_air_date.startsWith y)
    if filtered.isEmpty then results else filtered

/-- Chosen search result of _tv_has_allowed_network (lines 304-318):
none when the search failed or returned nothing; otherwise the most
popular result among those with an origin country in the allow-list,
falling back to the most popular overall. -/
def tvChosenResult (env : TVLookupEnv) (year : Option String)
    (allowedCountries : List String) : Option TVResult :=
  match env.search with
  | none => none
  | some results =>
    if results.isEmpty then none
    else
      let results2 := tvYearFiltered results year
      let preferred := results2.filter
        (fun r => r.origin_country.any (fun c => decide (c ∈ allowedCountries)))
      if preferred.isEmpty then pyMaxByPop results2 else pyMaxByPop preferred

/-- m3u_utils.py _tv_has_allowed_network (lines 277-373), after the query
preprocessing (which only shapes the request already folded into the
environment): no chosen result or no id excludes; a failed details
fetch allows by default; language "ja" excludes; "en" with an empty
allow-list allows; a network origin country, production country or show
origin country in the allow-list allows; otherwise exclude. -/
def _tv_has_allowed_network (env : TVLookupEnv) (year : Option String)
    (allowedCountries : List String) : Bool :=
  match tvChosenResult env year allowedCountries with
  | none => false
  | some best =>
    match best.id with
    | none => false
    | some _ =>
      match env.details with
      | none => true
      | some det =>
        let lang := pyLowerStr best.original_language
        if lang = "ja" then false
        else if lang = "en" ∧ allowedCountries = [] then true
        else if det.networks.any
            (fun oc => oc.any (fun c => decide (c ∈ allowedCountries))) then true
        else if (det.production_countries.filterMap id).any
            (fun c => decide (c ∈ allowedCountries)) then true
        else if det.origin_country.any (fun c => decide (c ∈ allowedCountries)) then true
        else false

/-! Retry wrapper, m3u_utils.py split_by_market_filter.with_retry (lines
399-409).  The wrapped call is modelled as a map from the attempt index
to its outcome: some b when fn returns b, none when fn raises
TMDbRateLimitError.  The pair returned is (result, number of attempts
performed). -/

def with_retry_go (oracle : Nat → Option Bool) : Nat → Nat → Bool × Nat
  | 0, i => (false, i)
  | n + 1, i =>
    match oracle i with
    | some b => (b, i + 1)
    | none => with_retry_go oracle n (i + 1)

def with_retry (maxRetries : Nat) (oracle : Nat → Option Bool) : Bool × Nat :=
  with_retry_go oracle maxRetries 0

/-- The delay variable of with_retry: initialized to 1 second and updated
to min(delay * 2, 30) after each rate-limited attempt (the random jitter
is added to the sleep, not to the stored delay). -/
def with_retry_delay : Nat → Nat
  | 0 => 1
  | n + 1 => min (with_retry_delay n * 2) 30

/-! Helper lemmas about the dict model. -/

section DictLemmas

variable {K V : Type} [DecidableEq K]

theorem dictLookup_dictInsert (m : List (K × V)) (k k' : K) (v : V) :
    dictLookup (dictInsert m k v) k' = if k' = k then some v else dictLookup m k' := by
  induction m with
  | nil =>
    by_cases h : k' = k
    · subst h; simp [dictInsert, dictLookup]
    · have h2 : ¬(k = k') := fun hh => h hh.symm
      simp [dictInsert, dictLookup, h, h2]
  | cons p rest ih =>
    obtain ⟨k0, v0⟩ := p
    by_cases h0 : k0 = k
    · subst h0
      by_cases h1 : k' = k0
      · subst h1; simp [dictInsert, dictLookup]
      · have h2 : ¬(k0 = k') := fun hh => h1 hh.symm
        simp [dictInsert, dictLookup, h1, h2]
    · by_cases h1 : k0 = k'
      · subst h1
        have h2 : ¬(k0 = k) := h0
        simp [dictInsert, dictLookup, h2]
      · simp [dictInsert, dictLookup, h0, h1, ih]

theorem dictLookup_eq_none_iff (m : List (K × V)) (k : K) :
    dictLookup m k = none ↔ k ∉ m.map Prod.fst := by
  induction m with
  | nil => simp [dictLookup]
  | cons p rest ih =>
    obtain ⟨k0, v0⟩ := p
    by_cases h0 : k0 = k
    · subst h0; simp [dictLookup]
    · have h2 : ¬(k = k0) := fun hh => h0 hh.symm
      simp [dictLookup, h0, ih, h2]

theorem dictInsert_eq_append {m : List (K × V)} {k : K} (v : V)
    (h : dictLookup m k = none) : dictInsert m k v = m ++ [(k, v)] := by
  induction m with
  | nil => simp [dictInsert]
  | cons p rest ih =>
    obtain ⟨k0, v0⟩ := p
    simp only [dictLookup] at h
    by_cases h0 : k0 = k
    · rw [if_pos h0] at h; cases h
    · rw [if_neg h0] at h
      simp [dictInsert, h0, ih h]

theorem dictKeys_dictInsert (m : List (K × V)) (k : K) (v : V) :
    (dictInsert m k v).map Prod.fst =
      if k ∈ m.map Prod.fst then m.map Prod.fst else m.map Prod.fst ++ [k] := by
  induction m with
  | nil => simp [dictInsert]
  | cons p rest ih =>
    obtain ⟨k0, v0⟩ := p
    by_cases h0 : k0 = k
    · subst h0; simp [dictInsert]
    · have hne : ¬(k = k0) := fun hh => h0 hh.symm
      simp only [dictInsert, if_neg h0, List.map_cons, ih, List.mem_cons]
      by_cases hk : k ∈ rest.map Prod.fst
      · simp [hk, hne]
      · simp [hk, hne]

theorem mem_dictInsert {m : List (K × V)} {k : K} {v : V} {p : K × V}
    (h : p ∈ dictInsert m k v) : p = (k, v) ∨ p ∈ m := by
  induction m with
  | nil => simpa [dictInsert] using h
  | cons q rest ih =>
    obtain ⟨k0, v0⟩ := q
    by_cases h0 : k0 = k
    · subst h0
      simp only [dictInsert, if_pos rfl] at h
      rcases List.mem_cons.mp h with h1 | h1
      · exact Or.inl h1
      · exact Or.inr (List.mem_cons_of_mem _ h1)
    · simp only [dictInsert, if_neg h0] at h
      rcases List.mem_cons.mp h with h1 | h1
      · exact Or.inr (h1 ▸ List.mem_cons_self _ _)
      · rcases ih h1 with h2 | h2
        · exact Or.inl h2
        · exact Or.inr (List.mem_cons_of_mem _ h2)

theorem dictLookup_of_mem_of_nodup {m : List (K × V)} (hn : (m.map Prod.fst).Nodup)
    {k : K} {v : V} (h : (k, v) ∈ m) : dictLookup m k = some v := by
  induction m with
  | nil => cases h
  | cons q rest ih =>
    obtain ⟨k0, v0⟩ := q
    rcases List.mem_cons.mp h with h1 | h1
    · injection h1 with hk hv
      subst hk; subst hv
      simp [dictLookup]
    · have hk0 : k0 ≠ k := by
        intro he; subst he
        have hmem : k0 ∈ rest.map Prod.fst :=
          List.mem_map_of_mem Prod.fst h1
        exact (List.nodup_cons.mp (by simpa using hn)).1 hmem
      simp only [dictLookup, if_neg hk0]
      exact ih (List.nodup_cons.mp (by simpa using hn)).2 h1

end DictLemmas

/-! Helper lemmas about pyStrip. -/

theorem dropWhile_head_false {α : Type} (p : α → Bool) (l : List α) (a : α)
    (h : (l.dropWhile p).head? = some a) : p a = false := by
  induction l with
  | nil => simp [List.dropWhile] at h
  | cons b t ih =>
    by_cases hb : p b = true
    · rw [List.dropWhile_cons, if_pos hb] at h
      exact ih h
    · rw [List.dropWhile_cons, if_neg hb] at h
      simp only [List.head?_cons, Option.some.injEq] at h
      subst h
      exact Bool.eq_false_iff.mpr hb

theorem dropWhile_idem {α : Type} (p : α → Bool) (l : List α) :
    (l.dropWhile p).dropWhile p = l.dropWhile p := by
  cases hl : l.dropWhile p with
  | nil => rfl
  | cons a t =>
    have ha : p a = false := dropWhile_head_false p l a (by rw [hl]; rfl)
    rw [List.dropWhile_cons, if_neg (by simp [ha])]

theorem dropWhile_getLast_eq {α : Type} (p : α → Bool) (m : List α)
    (h : m.dropWhile p ≠ []) : (m.dropWhile p).getLast? = m.getLast? := by
  induction m with
  | nil => simp [List.dropWhile] at h
  | cons a t ih =>
    by_cases hb : p a = true
    · rw [List.dropWhile_cons, if_pos hb] at h ⊢
      have ht : t ≠ [] := by
        intro he; subst he; simp [List.dropWhile] at h
      rw [ih h]
      cases t with
      | nil => exact absurd rfl ht
      | cons b l2 => rw [List.getLast?_cons_cons]
    · rw [List.dropWhile_cons, if_neg hb]

theorem dropWhile_eq_self_of_head {α : Type} (p : α → Bool) (l : List α)
    (h : ∀ a, l.head? = some a → p a = false) : l.dropWhile p = l := by
  cases l with
  | nil => rfl
  | cons a t => rw [List.dropWhile_cons, if_neg (by simp [h a rfl])]

theorem pyStrip_idem (s : List Char) : pyStrip (pyStrip s) = pyStrip s := by
  unfold pyStrip
  set y := s.dropWhile pyIsSpace with hy
  set z := y.reverse.dropWhile pyIsSpace with hz
  have h1 : z.reverse.dropWhile pyIsSpace = z.reverse := by
    apply dropWhile_eq_self_of_head
    intro a ha
    rw [List.head?_reverse] at ha
    have hzne : z ≠ [] := by
      intro he; rw [he] at ha; simp at ha
    have h2 : z.getLast? = y.reverse.getLast? := by
      rw [hz]
      exact dropWhile_getLast_eq _ _ (hz ▸ hzne)
    rw [h2, List.getLast?_reverse] at ha
    exact dropWhile_head_false pyIsSpace s a (hy ▸ ha)
  rw [h1, List.reverse_reverse, hz, dropWhile_idem]

theorem pyStripStr_idem (u : String) : pyStripStr (pyStripStr u) = pyStripStr u :=
  congrArg String.mk (pyStrip_idem u.data)

/-! Helper lemmas about the deduplication fold. -/

theorem dedupFold_append (keyGen : VODEntry → String) (es : List VODEntry) (e : VODEntry) :
    dedupFold keyGen (es ++ [e]) = dictInsert (dedupFold keyGen es) (keyGen e) e := by
  unfold dedupFold
  rw [List.foldl_append]
  rfl

theorem lastWith_append (keyGen : VODEntry → String) (es : List VODEntry) (e : VODEntry)
    (k : String) :
    lastWith keyGen (es ++ [e]) k =
      if keyGen e = k then some e else lastWith keyGen es k := by
  unfold lastWith
  rw [List.foldl_append]
  rfl

theorem dedupFold_lookup (keyGen : VODEntry → String) (entries : List VODEntry) (k : String) :
    dictLookup (dedupFold keyGen entries) k = lastWith keyGen entries k := by
  induction entries using List.reverseRecOn with
  | nil => rfl
  | append_singleton es e ih =>
    rw [dedupFold_append, dictLookup_dictInsert, lastWith_append]
    by_cases h : k = keyGen e
    · rw [if_pos h, if_pos h.symm]
    · rw [if_neg h, if_neg (fun hh => h hh.symm), ih]

theorem dedupFold_pairs (keyGen : VODEntry → String) (entries : List VODEntry) :
    ∀ p ∈ dedupFold keyGen entries, keyGen p.2 = p.1 := by
  induction entries using List.reverseRecOn with
  | nil => intro p hp; simp [dedupFold] at hp
  | append_singleton es e ih =>
    intro p hp
    rw [dedupFold_append] at hp
    rcases mem_dictInsert hp with h1 | h1
    · subst h1; rfl
    · exact ih p h1

theorem dedupFold_nodup (keyGen : VODEntry → String) (entries : List VODEntry) :
    ((dedupFold keyGen entries).map Prod.fst).Nodup := by
  induction entries using List.reverseRecOn with
  | nil => simp [dedupFold]
  | append_singleton es e ih =>
    rw [dedupFold_append, dictKeys_dictInsert]
    by_cases h : keyGen e ∈ (dedupFold keyGen es).map Prod.fst
    · rw [if_pos h]; exact ih
    · rw [if_neg h]
      refine List.Nodup.append ih (List.nodup_singleton _) ?_
      intro x hx hx2
      simp only [List.mem_singleton] at hx2
      subst hx2
      exact h hx

theorem dedupFold_mem_keys (keyGen : VODEntry → String) (entries : List VODEntry) (k : String) :
    k ∈ (dedupFold keyGen entries).map Prod.fst ↔ k ∈ entries.map keyGen := by
  induction entries using List.reverseRecOn with
  | nil => simp [dedupFold]
  | append_singleton es e ih =>
    rw [dedupFold_append, dictKeys_dictInsert, List.map_append]
    by_cases h : keyGen e ∈ (dedupFold keyGen es).map Prod.fst
    · rw [if_pos h, List.mem_append]
      constructor
      · intro hk; exact Or.inl (ih.mp hk)
      · intro hk
        rcases hk with hk | hk
        · exact ih.mpr hk
        · simp only [List.map_cons, List.map_nil, List.mem_singleton] at hk
          subst hk
          exact h
    · rw [if_neg h, List.mem_append, List.mem_append, ih]
      simp

theorem map_key_of_pairs (keyGen : VODEntry → String) (m : List (String × VODEntry))
    (h : ∀ p ∈ m, keyGen p.2 = p.1) :
    m.map (fun p => keyGen p.2) = m.map Prod.fst := by
  induction m with
  | nil => rfl
  | cons q rest ih =>
    simp only [List.map_cons]
    rw [h q (List.mem_cons_self _ _), ih (fun p hp => h p (List.mem_cons_of_mem _ hp))]

/-! Claim theorems. -/

/-- C1 (counterexample): the claim that canonical_movie_key maps
"The Matrix (1999)" and "the.matrix.1999.1080p" to the same key is
false: the sanitizer removes quality tags only as a colon-terminated
leading tag and does not recognize a bare (unparenthesized, undashed)
year, so the second title keeps both "1999" and "1080p" in its key. -/
theorem c1_matrix_keys_differ :
    canonical_movie_key "The Matrix (1999)" = "thematrix1999"
    ∧ canonical_movie_key "the.matrix.1999.1080p" = "thematrix19991080p"
    ∧ canonical_movie_key "The Matrix (1999)" ≠ canonical_movie_key "the.matrix.1999.1080p" :=
  ⟨rfl, rfl, by decide⟩

/-- C1 (amended): canonical_movie_key identifies titles differing only in
case, separators and punctuation when the year is written in a
recognized form (parenthesized, or a "- YYYY" dash suffix): the spec's
example pair diverges because "the.matrix.1999.1080p" carries a bare
year and a trailing quality tag, which the key function preserves. -/
theorem c1_canonical_movie_key_noise :
    canonical_movie_key "The Matrix (1999)" = "thematrix1999"
    ∧ canonical_movie_key "the.matrix.(1999)" = "thematrix1999"
    ∧ canonical_movie_key "THE_MATRIX_(1999)" = "thematrix1999"
    ∧ canonical_movie_key "The Matrix - 1999" = "thematrix1999"
    ∧ canonical_movie_key "the.matrix.1999.1080p" = "thematrix19991080p" :=
  ⟨rfl, rfl, rfl, rfl, rfl⟩

/-- C5: deduplication keeps exactly one entry per distinct key (the key
column of the resulting dict is duplicate-free and covers exactly the
keys of the input), and the kept entry for each key is the last one in
parse order, with all its fields (map-overwrite semantics).  Stated for
an arbitrary key function, since KeyGenerator.generate_key is imported
from core.py but absent from it. -/
theorem c5_dedup_last_parsed_wins (keyGen : VODEntry → String) (entries : List VODEntry) :
    ((dedup keyGen entries).map keyGen).Nodup
    ∧ (∀ e, e ∈ dedup keyGen entries → lastWith keyGen entries (keyGen e) = some e)
    ∧ (∀ k, k ∈ entries.map keyGen ↔ ∃ e, e ∈ dedup keyGen entries ∧ keyGen e = k) := by
  have hpairs := dedupFold_pairs keyGen entries
  have hnodup := dedupFold_nodup keyGen entries
  refine ⟨?_, ?_, ?_⟩
  · have hmaps : (dedup keyGen entries).map keyGen = (dedupFold keyGen entries).map Prod.fst := by
      unfold dedup
      rw [List.map_map]
      simpa [Function.comp] using map_key_of_pairs keyGen _ hpairs
    rw [hmaps]
    exact hnodup
  · intro e he
    unfold dedup at he
    rcases List.mem_map.mp he with ⟨p, hp, hpe⟩
    have hkey : keyGen p.2 = p.1 := hpairs p hp
    have hlook : dictLookup (dedupFold keyGen entries) p.1 = some p.2 := by
      apply dictLookup_of_mem_of_nodup hnodup
      exact Prod.mk.eta.symm ▸ hp
    rw [← hpe, hkey, ← dedupFold_lookup]
    exact hlook
  · intro k
    rw [← dedupFold_mem_keys]
    constructor
    · intro hk
      rcases List.mem_map.mp hk with ⟨p, hp, hpk⟩
      refine ⟨p.2, List.mem_map_of_mem Prod.snd hp, ?_⟩
      rw [hpairs p hp, hpk]
    · rintro ⟨e, he, hek⟩
      rcases List.mem_map.mp he with ⟨p, hp, hpe⟩
      rw [← hek, ← hpe, hpairs p hp]
      exact List.mem_map_of_mem Prod.fst hp

/-- C5 witness: two entries with the same key; deduplication keeps the
later one. -/
theorem c5_dedup_witness :
    lastWith (fun e => e.safe_title)
        [{ raw_title := "A 1", safe_title := "a", url := "http://1", category := Category.MOVIE },
         { raw_title := "A 2", safe_title := "a", url := "http://2", category := Category.MOVIE }]
        "a"
      = some { raw_title := "A 2", safe_title := "a", url := "http://2",
               category := Category.MOVIE } := by
  have h := c5_dedup_last_parsed_wins (fun e => e.safe_title)
    [{ raw_title := "A 1", safe_title := "a", url := "http://1", category := Category.MOVIE },
     { raw_title := "A 2", safe_title := "a", url := "http://2", category := Category.MOVIE }]
  exact h.2.1
    { raw_title := "A 2", safe_title := "a", url := "http://2", category := Category.MOVIE }
    (by decide)

/-- C6: the claim that, absent a group match, a season/episode pattern in
the title yields TVEpisode is contradicted by the code: the heuristic
block is guarded by "cat not in (MOVIE, DOCUMENTARY, TVSHOW, REPLAY)",
which is always false because cat is initialized to MOVIE, so a
grouped-nowhere entry titled "Show S01E02" is classified MOVIE even
though its title matches the season/episode pattern. -/
theorem c6_heuristic_dead_movie_default :
    parse_m3u_category none [] [] [] [] "Show S01E02" = Category.MOVIE
    ∧ searchSE ("Show S01E02").data = true
    ∧ Category.MOVIE ≠ Category.TVSHOW :=
  ⟨rfl, rfl, by decide⟩

/-- C10 (counterexample): sanitize_title is not idempotent: one pass
strips only the last trailing year token, so a title ending in two year
tokens needs two passes ("Movie 1999 2000" becomes "Movie 1999", then
"Movie"); the anchored quality-tag substitution likewise strips one
colon-terminated leading tag per pass, so even a year-free title such as
"720p: 1080p: Movie" needs two passes. -/
theorem c10_sanitize_not_idempotent :
    sanitize_title "Movie 1999 2000" = "Movie 1999"
    ∧ sanitize_title (sanitize_title "Movie 1999 2000") = "Movie"
    ∧ sanitize_title (sanitize_title "Movie 1999 2000") ≠ sanitize_title "Movie 1999 2000"
    ∧ sanitize_title "720p: 1080p: Movie" = "1080p: Movie"
    ∧ sanitize_title (sanitize_title "720p: 1080p: Movie") = "Movie"
    ∧ sanitize_title (sanitize_title "720p: 1080p: Movie")
        ≠ sanitize_title "720p: 1080p: Movie" :=
  ⟨rfl, rfl, by decide, rfl, rfl, by decide⟩

/-- C10 (amended): sanitize_title is not idempotent: each pass performs
one trailing-year substitution and one anchored quality-tag
substitution, so stacked tokens survive a single pass.  On the spec's
example inputs listed here, applying sanitize_title twice equals
applying it once. -/
theorem c10_sanitize_idempotent_on_examples :
    sanitize_title (sanitize_title "The Matrix (1999)") = sanitize_title "The Matrix (1999)"
    ∧ sanitize_title (sanitize_title "the.matrix.1999.1080p")
        = sanitize_title "the.matrix.1999.1080p"
    ∧ sanitize_title (sanitize_title "Some Show S01E02") = sanitize_title "Some Show S01E02"
    ∧ sanitize_title (sanitize_title "A & B: the IMDB tt1234 story")
        = sanitize_title "A & B: the IMDB tt1234 story" :=
  ⟨rfl, rfl, rfl, rfl⟩

/-- C4 (counterexample): the write decision is not keyed on byte-identical
content: a pointer file whose content differs from the URL only in case
(and the canonical trailing newline) is left untouched instead of being
overwritten, because the source compares stripped, lowercased contents. -/
theorem c4_case_insensitive_skip :
    (write_strm_file [(["Movies", "A", "A.strm"], "HTTP://A\n")]
        ["Movies", "A", "A.strm"] "http://a").wrote = false
    ∧ (write_strm_file [(["Movies", "A", "A.strm"], "HTTP://A\n")]
        ["Movies", "A", "A.strm"] "http://a").fs
      = [(["Movies", "A", "A.strm"], "HTTP://A\n")]
    ∧ "HTTP://A\n" ≠ "http://a" :=
  ⟨rfl, rfl, by decide⟩

/-- C4 (amended): the entry is skipped with no write exactly when a file
already exists at the target path whose content equals the source URL up
to surrounding whitespace and ASCII case; otherwise the file is
(over)written and its content becomes exactly the stripped source URL
followed by a newline. -/
theorem c4_write_strm_file_skip_or_overwrite (fs : List (FsPath × String)) (target : FsPath)
    (url : String) :
    ((write_strm_file fs target url).wrote = false ↔
        ∃ c, dictLookup fs target = some c ∧
          pyLowerStr (pyStripStr c) = pyLowerStr (pyStripStr url))
    ∧ ((write_strm_file fs target url).wrote = false →
        (write_strm_file fs target url).fs = fs)
    ∧ ((write_strm_file fs target url).wrote = true →
        dictLookup (write_strm_file fs target url).fs target = some (strmContent url)) := by
  cases hl : dictLookup fs target with
  | none =>
    simp only [write_strm_file, hl]
    refine ⟨by simp, by simp, ?_⟩
    intro _
    rw [dictLookup_dictInsert]
    simp
  | some c =>
    simp only [write_strm_file, hl]
    rw [pyStripStr_idem c]
    by_cases hcmp : pyLowerStr (pyStripStr c) = pyLowerStr (pyStripStr url)
    · rw [if_pos hcmp]
      refine ⟨?_, fun _ => rfl, ?_⟩
      · constructor
        · intro _; exact ⟨c, rfl, hcmp⟩
        · intro _; rfl
      · intro h; exact absurd h (by simp)
    · rw [if_neg hcmp]
      refine ⟨?_, ?_, ?_⟩
      · constructor
        · intro h; exact absurd h (by simp)
        · rintro ⟨c2, hc2, he⟩
          injection hc2 with hc3
          subst hc3
          exact absurd he hcmp
      · intro h; exact absurd h (by simp)
      · intro _
        rw [dictLookup_dictInsert]
        simp

/-- C4 witness: writing to an empty tree produces a pointer file whose
content is the stripped URL plus a newline. -/
theorem c4_write_witness :
    dictLookup (write_strm_file [] ["Movies", "B", "B.strm"] "http://b").fs
        ["Movies", "B", "B.strm"] = some (strmContent "http://b") :=
  (c4_write_strm_file_skip_or_overwrite [] ["Movies", "B", "B.strm"] "http://b").2.2 rfl

/-- C2: processing the same (key, URL) entry in two consecutive runs over
the same output tree: the first run (key unknown to the local inventory
and to the decision cache, file absent) writes the pointer file and
reports written; the second run, started from the persisted cache and
the resulting tree, reports skipped and performs no filesystem change;
exactly one pointer file exists at the derived path afterward, holding
the URL. -/
theorem c2_two_runs_write_then_skip (existingKeys : List String)
    (strmCache0 : List (String × CacheRec)) (fs0 : List (FsPath × String))
    (key : String) (absPath : FsPath) (url : String)
    (hex : key ∉ existingKeys) (hc : dictLookup strmCache0 key = none)
    (hf : dictLookup fs0 absPath = none) :
    let r1 := run_pipeline_process_entry existingKeys strmCache0 strmCache0 fs0 key absPath url
    let r2 := run_pipeline_process_entry existingKeys r1.cacheAfter r1.cacheAfter r1.fs
        key absPath url
    r1.outcome = Outcome.written
    ∧ r2.outcome = Outcome.skippedCached
    ∧ r2.fs = r1.fs
    ∧ dictLookup r1.fs absPath = some (strmContent url)
    ∧ r1.fs.countP (fun pc => decide (pc.1 = absPath)) = 1 := by
  intro r1 r2
  have h1o : r1.outcome = Outcome.written := by
    show (run_pipeline_process_entry existingKeys strmCache0 strmCache0 fs0
        key absPath url).outcome = _
    simp only [run_pipeline_process_entry, if_neg hex, hc, write_strm_file, hf]
  have h1c : r1.cacheAfter = dictInsert strmCache0 key
      { url := url, path := some absPath, allowed := some 1 } := by
    show (run_pipeline_process_entry existingKeys strmCache0 strmCache0 fs0
        key absPath url).cacheAfter = _
    simp only [run_pipeline_process_entry, if_neg hex, hc, write_strm_file, hf]
  have h1f : r1.fs = dictInsert fs0 absPath (strmContent url) := by
    show (run_pipeline_process_entry existingKeys strmCache0 strmCache0 fs0
        key absPath url).fs = _
    simp only [run_pipeline_process_entry, if_neg hex, hc, write_strm_file, hf]
  have hlook : dictLookup (dictInsert strmCache0 key
      ({ url := url, path := some absPath, allowed := some 1 } : CacheRec)) key
      = some { url := url, path := some absPath, allowed := some 1 } := by
    rw [dictLookup_dictInsert]
    simp
  have hr2full : run_pipeline_process_entry existingKeys
      (dictInsert strmCache0 key { url := url, path := some absPath, allowed := some 1 })
      (dictInsert strmCache0 key { url := url, path := some absPath, allowed := some 1 })
      (dictInsert fs0 absPath (strmContent url)) key absPath url
      = { outcome := Outcome.skippedCached,
          cacheAfter := dictInsert
            (dictInsert strmCache0 key { url := url, path := some absPath, allowed := some 1 })
            key { url := url, path := some absPath, allowed := some 1 },
          fs := dictInsert fs0 absPath (strmContent url) } := by
    simp only [run_pipeline_process_entry, if_neg hex, hlook]
    rw [if_pos (by simp)]
  have h2o : r2.outcome = Outcome.skippedCached := by
    show (run_pipeline_process_entry existingKeys r1.cacheAfter r1.cacheAfter r1.fs
        key absPath url).outcome = _
    rw [h1c, h1f, hr2full]
  have h2f : r2.fs = r1.fs := by
    show (run_pipeline_process_entry existingKeys r1.cacheAfter r1.cacheAfter r1.fs
        key absPath url).fs = r1.fs
    rw [h1c, h1f, hr2full]
  have hfs1 : dictLookup r1.fs absPath = some (strmContent url) := by
    rw [h1f, dictLookup_dictInsert]
    simp
  have hcount : r1.fs.countP (fun pc => decide (pc.1 = absPath)) = 1 := by
    rw [h1f, dictInsert_eq_append _ hf, List.countP_append]
    have h0 : fs0.countP (fun pc => decide (pc.1 = absPath)) = 0 := by
      rw [List.countP_eq_zero]
      intro pc hpc
      have hne : pc.1 ≠ absPath := by
        intro he
        have : absPath ∈ fs0.map Prod.fst := he ▸ List.mem_map_of_mem Prod.fst hpc
        exact (dictLookup_eq_none_iff fs0 absPath).mp hf this
      simp [hne]
    rw [h0]
    simp
  exact ⟨h1o, h2o, h2f, hfs1, hcount⟩

/-- C2 witness: a concrete first-write run followed by a cached skip run. -/
theorem c2_two_runs_witness :
    let r1 := run_pipeline_process_entry [] [] [] [] "k" ["Movies", "A", "A.strm"] "http://a"
    let r2 := run_pipeline_process_entry [] r1.cacheAfter r1.cacheAfter r1.fs "k"
        ["Movies", "A", "A.strm"] "http://a"
    r1.outcome = Outcome.written
    ∧ r2.outcome = Outcome.skippedCached
    ∧ r2.fs = r1.fs
    ∧ dictLookup r1.fs ["Movies", "A", "A.strm"] = some (strmContent "http://a")
    ∧ r1.fs.countP (fun pc => decide (pc.1 = ["Movies", "A", "A.strm"])) = 1 :=
  c2_two_runs_write_then_skip [] [] [] "k" ["Movies", "A", "A.strm"] "http://a"
    (by simp) rfl rfl

/-- C7: whenever the first (highest-ranked) result of the effective movie
search has original language "ja" (after the source's lowercasing), the
movie/documentary lookup returns false — for every allowed-country list
and whatever the release-country data holds.  (Documentaries are
classified through the same `_movie_tmdb_lookup` call.) -/
theorem c7_movie_ja_excluded (env : MovieLookupEnv) (year : Option String)
    (allowedCountries : List String) (results : List MovieResult) (best : MovieResult)
    (hres : movieEffectiveResults env year = some results)
    (hhead : results.head? = some best)
    (hja : pyLowerStr best.original_language = "ja") :
    _movie_tmdb_lookup env year allowedCountries = false := by
  unfold _movie_tmdb_lookup
  simp only [hres, hhead]
  cases hid : best.id with
  | none => rfl
  | some i =>
    cases hrel : env.releases with
    | none => rfl
    | some rel => simp [hja]

/-- C7 witness: a best search result in Japanese is excluded even though
its release country is in the allow-list. -/
theorem c7_movie_ja_witness :
    _movie_tmdb_lookup
      { search := some [{ id := some 1, original_language := "JA" }],
        searchRetry := none,
        releases := some [some "US"] } none ["US"] = false :=
  c7_movie_ja_excluded _ none ["US"] [{ id := some 1, original_language := "JA" }]
    { id := some 1, original_language := "JA" } rfl rfl rfl

/-- C8: in the TV decision, when the chosen search result carries an id
but the show-details fetch yields nothing, the decision is allow
(fail-open), for every year and allowed-country list. -/
theorem c8_tv_no_details_fail_open (env : TVLookupEnv) (year : Option String)
    (allowedCountries : List String) (best : TVResult)
    (hch : tvChosenResult env year allowedCountries = some best)
    (hid : best.id.isSome = true) (hdet : env.details = none) :
    _tv_has_allowed_network env year allowedCountries = true := by
  unfold _tv_has_allowed_network
  simp only [hch]
  cases h : best.id with
  | none => rw [h] at hid; simp at hid
  | some t => simp [h, hdet]

/-- C8 witness: a search result with an id and an unavailable details
fetch is allowed. -/
theorem c8_tv_no_details_witness :
    _tv_has_allowed_network ⟨some [⟨some 7, "en", 1, [], ""⟩], none⟩ none [] = true :=
  c8_tv_no_details_fail_open ⟨some [⟨some 7, "en", 1, [], ""⟩], none⟩ none []
    ⟨some 7, "en", 1, [], ""⟩ rfl rfl rfl

/-- C9: the retry wrapper performs at most maxRetries attempts (so the
loop terminates within the attempt budget), the backoff delay is
monotonically non-decreasing and never exceeds the 30-second cap, and
when every attempt raises the rate-limit signal the wrapper returns
false, so the entry is classified as excluded. -/
theorem c9_with_retry_budget_backoff_exhaustion (maxRetries : Nat)
    (oracle : Nat → Option Bool) :
    (with_retry maxRetries oracle).2 ≤ maxRetries
    ∧ (∀ i, with_retry_delay i ≤ with_retry_delay (i + 1) ∧ with_retry_delay i ≤ 30)
    ∧ ((∀ i, oracle i = none) → (with_retry maxRetries oracle).1 = false) := by
  have hcount : ∀ n i, (with_retry_go oracle n i).2 ≤ i + n := by
    intro n
    induction n with
    | zero => intro i; simp [with_retry_go]
    | succ n ih =>
      intro i
      unfold with_retry_go
      cases oracle i with
      | some b =>
        show i + 1 ≤ i + (n + 1)
        omega
      | none =>
        have hh := ih (i + 1)
        show (with_retry_go oracle n (i + 1)).2 ≤ i + (n + 1)
        omega
  have hbounds : ∀ i, 1 ≤ with_retry_delay i ∧ with_retry_delay i ≤ 30 := by
    intro i
    induction i with
    | zero => simp [with_retry_delay]
    | succ i ih =>
      unfold with_retry_delay
      omega
  refine ⟨?_, ?_, ?_⟩
  · have := hcount maxRetries 0
    simpa [with_retry] using this
  · intro i
    have hb := hbounds i
    constructor
    · show with_retry_delay i ≤ min (with_retry_delay i * 2) 30
      omega
    · exact hb.2
  · intro hall
    have hgo : ∀ n i, (with_retry_go oracle n i).1 = false := by
      intro n
      induction n with
      | zero => intro i; rfl
      | succ n ih =>
        intro i
        unfold with_retry_go
        rw [hall i]
        exact ih (i + 1)
    exact hgo maxRetries 0

/-- C9 witness: three attempts that all hit the rate limit stay within
the budget and yield false. -/
theorem c9_with_retry_witness :
    (with_retry 3 (fun _ => none)).2 ≤ 3
    ∧ with_retry_delay 0 ≤ with_retry_delay 1
    ∧ (with_retry 3 (fun _ => none)).1 = false := by
  have h := c9_with_retry_budget_backoff_exhaustion 3 (fun _ => none)
  exact ⟨h.1, (h.2.1 0).1, h.2.2 (fun i => rfl)⟩

/-! Helper lemmas about the cleanup walk. -/

theorem mem_cleanupOrphans {cache : List (String × CacheRec)} {d : FsPath}
    {files : List FileNode} {f : FileNode} :
    f ∈ cleanupOrphans cache d files ↔
      f ∈ files ∧ ¬(f.dir = d ∧ isStrmName f.name = true ∧ fullPath f ∉ valid_paths cache) := by
  unfold cleanupOrphans
  rw [List.mem_filter]
  constructor
  · rintro ⟨hmem, hpred⟩
    refine ⟨hmem, ?_⟩
    rintro ⟨hd, hs, hv⟩
    have hany : (valid_paths cache).any (fun p => decide (p = fullPath f)) = false := by
      cases hx : (valid_paths cache).any (fun p => decide (p = fullPath f)) with
      | false => rfl
      | true =>
        rcases List.any_eq_true.mp hx with ⟨p, hp, hpe⟩
        exact absurd ((of_decide_eq_true hpe) ▸ hp) hv
    rw [decide_eq_true hd, hs, hany] at hpred
    simp at hpred
  · rintro ⟨hmem, hneg⟩
    refine ⟨hmem, ?_⟩
    by_cases hd : f.dir = d
    · by_cases hs : isStrmName f.name = true
      · have hv : fullPath f ∈ valid_paths cache := by
          by_contra hv
          exact hneg ⟨hd, hs, hv⟩
        have hany : (valid_paths cache).any (fun p => decide (p = fullPath f)) = true :=
          List.any_eq_true.mpr ⟨fullPath f, hv, by simp⟩
        rw [decide_eq_true hd, hs, hany]
        rfl
      · have hs2 : isStrmName f.name = false := Bool.eq_false_iff.mpr hs
        rw [hs2]
        simp
    · have hd2 : decide (f.dir = d) = false := decide_eq_false hd
      rw [hd2]
      simp

theorem cleanupStep_files_subset {cache : List (String × CacheRec)} {st : CleanState}
    {d : FsPath} {f : FileNode} (h : f ∈ (cleanupStep cache st d).files) :
    f ∈ st.files ∧ ¬(f.dir = d ∧ isStrmName f.name = true ∧ fullPath f ∉ valid_paths cache) := by
  have hb : f ∈ cleanupOrphans cache d st.files := by
    simp only [cleanupStep] at h
    split_ifs at h
    · exact h
    · exact h
    · exact (List.mem_filter.mp h).1
    · exact h
  exact mem_cleanupOrphans.mp hb

theorem cleanup_fold_files (cache : List (String × CacheRec)) :
    ∀ (ds : List FsPath) (st : CleanState) (f : FileNode),
      (f ∉ st.files ∨ (f.dir ∈ ds ∧ isStrmName f.name = true ∧ fullPath f ∉ valid_paths cache)) →
      f ∉ (ds.foldl (cleanupStep cache) st).files := by
  intro ds
  induction ds with
  | nil =>
    intro st f h
    rcases h with h | ⟨hd, _, _⟩
    · exact h
    · exact absurd hd (List.not_mem_nil _)
  | cons d ds ih =>
    intro st f h
    show f ∉ (ds.foldl (cleanupStep cache) (cleanupStep cache st d)).files
    rcases h with h | ⟨hd, hs, hv⟩
    · apply ih
      left
      intro hmem
      exact h (cleanupStep_files_subset hmem).1
    · rcases List.mem_cons.mp hd with hd1 | hd1
      · apply ih
        left
        intro hmem
        exact (cleanupStep_files_subset hmem).2 ⟨hd1, hs, hv⟩
      · apply ih
        right
        exact ⟨hd1, hs, hv⟩

theorem cleanupStep_removed {cache : List (String × CacheRec)} {st : CleanState}
    {d d2 : FsPath} (h : d2 ∈ (cleanupStep cache st d).removedDirs) :
    d2 ∈ st.removedDirs ∨ dirBaseName d2 ∉ protectedRoots := by
  simp only [cleanupStep] at h
  split_ifs at h with h1 h2 h3
  · exact Or.inl h
  · rcases List.mem_cons.mp h with h4 | h4
    · subst h4
      exact Or.inr h1
    · exact Or.inl h4
  · rcases List.mem_cons.mp h with h4 | h4
    · subst h4
      exact Or.inr h1
    · exact Or.inl h4
  · exact Or.inl h

theorem cleanup_fold_removed (cache : List (String × CacheRec)) :
    ∀ (ds : List FsPath) (st : CleanState) (d2 : FsPath),
      dirBaseName d2 ∈ protectedRoots → d2 ∉ st.removedDirs →
      d2 ∉ (ds.foldl (cleanupStep cache) st).removedDirs := by
  intro ds
  induction ds with
  | nil => intro st d2 _ h2; exact h2
  | cons d ds ih =>
    intro st d2 h1 h2
    show d2 ∉ (ds.foldl (cleanupStep cache) (cleanupStep cache st d)).removedDirs
    apply ih _ _ h1
    intro hmem
    rcases cleanupStep_removed hmem with h3 | h3
    · exact h2 h3
    · exact h3 h1

/-- C3: after cleanup over a non-empty cache, every walked .strm file
whose resolved path is absent from the cache's valid-path set has been
removed, and no directory named after a category root (Movies, TV Shows,
Documentaries) is ever removed, even when it ends up empty. -/
theorem c3_cleanup_orphans_and_roots (cache : List (String × CacheRec))
    (dirs : List FsPath) (files : List FileNode) (hc : cache ≠ []) :
    (∀ f ∈ files, isStrmName f.name = true → f.dir ∈ dirs →
        fullPath f ∉ valid_paths cache → f ∉ (cleanup_strm_tree cache dirs files).files)
    ∧ ∀ d, dirBaseName d ∈ protectedRoots →
        d ∉ (cleanup_strm_tree cache dirs files).removedDirs := by
  have hne : cache.isEmpty = false := by
    cases cache with
    | nil => exact absurd rfl hc
    | cons a t => rfl
  have hunf : cleanup_strm_tree cache dirs files
      = dirs.foldl (cleanupStep cache)
          { files := files, liveDirs := dirs, removedDirs := [] } := by
    unfold cleanup_strm_tree
    rw [hne]
    rfl
  constructor
  · intro f _ hs hd hv
    rw [hunf]
    exact cleanup_fold_files cache dirs _ f (Or.inr ⟨hd, hs, hv⟩)
  · intro d hd
    rw [hunf]
    exact cleanup_fold_removed cache dirs _ d hd (by simp)

/-- C3 witness: an orphan pointer file is removed while the Movies root
directory survives the walk. -/
theorem c3_cleanup_witness :
    (⟨["Movies", "Bad"], "b.strm"⟩ : FileNode)
        ∉ (cleanup_strm_tree [("k", ⟨"u", some ["Movies", "Good", "g.strm"], some 1⟩)]
            [["Movies", "Bad"], ["Movies"]] [⟨["Movies", "Bad"], "b.strm"⟩]).files
    ∧ ["Movies"]
        ∉ (cleanup_strm_tree [("k", ⟨"u", some ["Movies", "Good", "g.strm"], some 1⟩)]
            [["Movies", "Bad"], ["Movies"]] [⟨["Movies", "Bad"], "b.strm"⟩]).removedDirs := by
  have h := c3_cleanup_orphans_and_roots
      [("k", ⟨"u", some ["Movies", "Good", "g.strm"], some 1⟩)]
      [["Movies", "Bad"], ["Movies"]] [⟨["Movies", "Bad"], "b.strm"⟩] (by decide)
  exact ⟨h.1 _ (by decide) (by decide) (by decide) (by decide), h.2 ["Movies"] (by decide)⟩

end StrmSync
